import Mathlib

/-!
Shallow embedding of the `celine-policies` authorization decision service
(Python) and proofs of the specification claims about it.

Each definition mirrors one Python function of the repository; the source
file and symbol are named in its doc comment.  Machine-level concerns
(threads, wall-clock time, network I/O) are made explicit: time is a `Nat`
parameter, external collaborators (the Rego evaluator, the JWKS HTTP
endpoint, the SHA-256 digest) are oracle function parameters.
-/

namespace Celine

/-- JSON-shaped values, as produced by Python dicts/lists/scalars that flow
through `json.dumps`, Rego query results and JWT claims maps.  Numbers are
modelled as integers (no claim depends on float behaviour). -/
inductive Json where
  | null : Json
  | bool (b : Bool) : Json
  | num (n : Int) : Json
  | str (s : String) : Json
  | arr (elems : List Json) : Json
  | obj (members : List (String × Json)) : Json
deriving Repr

namespace Json

/-- Key-value association lookup, mirroring Python `dict.get(k)` on a dict
modelled as an insertion-ordered association list with unique keys. -/
def lookup (k : String) : List (String × Json) → Option Json
  | [] => none
  | (k', v) :: rest => if k' = k then some v else lookup k rest

/-- Python truthiness (`bool(value)`) of a JSON-shaped value. -/
def truthy : Json → Bool
  | .null => false
  | .bool b => b
  | .num n => n != 0
  | .str s => s != ""
  | .arr l => !l.isEmpty
  | .obj m => !m.isEmpty

mutual

/-- Canonicalization performed by `json.dumps(..., sort_keys=True)`:
object members are emitted in ascending key order at every level.  We model
it as a pre-pass that sorts members recursively; serialization afterwards
is order-preserving. -/
def canon : Json → Json
  | .null => .null
  | .bool b => .bool b
  | .num n => .num n
  | .str s => .str s
  | .arr l => .arr (canonList l)
  | .obj m => .obj (List.insertionSort (fun p q => p.1 ≤ q.1) (canonMembers m))

def canonList : List Json → List Json
  | [] => []
  | j :: rest => canon j :: canonList rest

def canonMembers : List (String × Json) → List (String × Json)
  | [] => []
  | (k, j) :: rest => (k, canon j) :: canonMembers rest

end

mutual

/-- Order-preserving JSON serialization (the emission half of
`json.dumps`); `canon` has already put object members into sorted order. -/
def dump : Json → String
  | .null => "null"
  | .bool true => "true"
  | .bool false => "false"
  | .num n => toString n
  | .str s => "\"" ++ s ++ "\""
  | .arr l => "[" ++ String.intercalate ", " (dumpList l) ++ "]"
  | .obj m => "\x7b" ++ String.intercalate ", " (dumpMembers m) ++ "\x7d"

def dumpList : List Json → List String
  | [] => []
  | j :: rest => dump j :: dumpList rest

def dumpMembers : List (String × Json) → List String
  | [] => []
  | (k, j) :: rest => ("\"" ++ k ++ "\": " ++ dump j) :: dumpMembers rest

end

/-- `json.dumps(value, sort_keys=True)`. -/
def dumps (j : Json) : String := dump (canon j)

end Json

/-! ## Domain models (`src/celine/policies/models/core.py`) -/

/-- `FilterPredicate` (models/core.py): row-level filter hint. -/
structure FilterPredicate where
  field : String
  op : String
  value : Json
deriving Repr

/-- `Decision` (models/core.py): result of one policy evaluation. -/
structure Decision where
  allowed : Bool
  reason : String
  policy : String
  filters : List FilterPredicate
  metadata : List (String × Json)
deriving Repr

/-! ## DecisionCache (`src/celine/policies/engine/cache.py`)

The Python class delegates storage to `cachetools.TTLCache`, a third-party
LRU + TTL map: lookups move the key to most-recently-used, insertion first
drops expired entries, then evicts least-recently-used entries while at
capacity.  We model the cache contents as a list of
`(key, decision, expires_at)` entries in recency order (head = most
recently used), with the current time an explicit `Nat` argument. -/

/-- The top-level shape of the `input_data` dict handed to
`DecisionCache.get`/`set` (built by `PolicyEngine._build_input`): optional
`subject`/`resource`/`action` values and an optional `environment` dict. -/
structure InputDict where
  subject : Option Json
  resource : Option Json
  action : Option Json
  environment : Option (List (String × Json))

/-- The environment filter inside `DecisionCache._extract_stable_input`:
drop the volatile fields `timestamp`, `request_id` and `trace_id`. -/
def stableEnvFilter (env : List (String × Json)) : List (String × Json) :=
  env.filter (fun kv =>
    !(kv.1 == "timestamp" || kv.1 == "request_id" || kv.1 == "trace_id"))

/-- `DecisionCache._extract_stable_input`: copy `subject`, `resource` and
`action` when present; keep only the `environment` fields other than
`timestamp`, `request_id` and `trace_id`, omitting `environment` entirely
when nothing stable remains (an empty dict is falsy in Python). -/
def extractStableInput (i : InputDict) : Json :=
  Json.obj (
    (match i.subject with
      | some s => [("subject", s)]
      | none => []) ++
    (match i.resource with
      | some r => [("resource", r)]
      | none => []) ++
    (match i.action with
      | some a => [("action", a)]
      | none => []) ++
    (match i.environment with
      | some env =>
          let stableEnv := stableEnvFilter env
          if stableEnv.isEmpty then [] else [("environment", Json.obj stableEnv)]
      | none => []))

/-- `DecisionCache._make_key`.  `digest` is the oracle for
`hashlib.sha256(content.encode()).hexdigest()[:32]` (an external library
function); theorems about keys assume only that its output has the fixed
length 32. -/
def makeKey (digest : String → String) (policy : String) (i : InputDict) : String :=
  let content := policy ++ ":" ++ Json.dumps (extractStableInput i)
  policy ++ ":" ++ digest content

/-- A truncated hex digest: every output has length 32 (as
`sha256(...).hexdigest()[:32]` does). -/
def HexDigest32 (digest : String → String) : Prop :=
  ∀ s, (digest s).length = 32

/-- `DecisionCache` state: the backing `TTLCache` contents (recency order,
head = most recently used, each entry carrying its expiry instant) plus the
configuration and hit/miss counters. -/
structure DecisionCache where
  maxsize : Nat
  ttl : Nat
  entries : List (String × Decision × Nat)
  hits : Nat
  misses : Nat

namespace DecisionCache

/-- `DecisionCache(maxsize, ttl_seconds)`. -/
def init (maxsize ttl : Nat) : DecisionCache :=
  { maxsize := maxsize, ttl := ttl, entries := [], hits := 0, misses := 0 }

/-- The keys currently held, in recency order. -/
def keys (c : DecisionCache) : List String := c.entries.map (·.1)

/-- `TTLCache` lookup at time `now`: a present, unexpired key is a hit and
is moved to most-recently-used; an expired or absent key is a miss
(`cachetools` leaves an expired entry in place until the next mutation). -/
def rawGet (c : DecisionCache) (now : Nat) (key : String) :
    Option Decision × DecisionCache :=
  match c.entries.find? (fun e => e.1 == key) with
  | some (_, d, exp) =>
      if now < exp then
        (some d,
         { c with
            entries := (key, d, exp) :: c.entries.filter (fun e => !(e.1 == key)),
            hits := c.hits + 1 })
      else (none, { c with misses := c.misses + 1 })
  | none => (none, { c with misses := c.misses + 1 })

/-- `TTLCache` insertion at time `now`: drop expired entries, replace any
existing entry for the key, evict least-recently-used entries while at
capacity, then insert as most-recently-used with expiry `now + ttl`.
(`maxsize = 0` cannot hold any entry: the Python insert raises after
emptying the cache.) -/
def rawSet (c : DecisionCache) (now : Nat) (key : String) (d : Decision) :
    DecisionCache :=
  let live := c.entries.filter (fun e => now < e.2.2)
  let without := live.filter (fun e => !(e.1 == key))
  if c.maxsize = 0 then { c with entries := [] }
  else { c with entries := (key, d, now + c.ttl) :: without.take (c.maxsize - 1) }

/-- `DecisionCache.get(policy, input_data)`. -/
def get (digest : String → String) (c : DecisionCache) (now : Nat)
    (policy : String) (i : InputDict) : Option Decision × DecisionCache :=
  c.rawGet now (makeKey digest policy i)

/-- `DecisionCache.set(policy, input_data, decision)`. -/
def set (digest : String → String) (c : DecisionCache) (now : Nat)
    (policy : String) (i : InputDict) (d : Decision) : DecisionCache :=
  c.rawSet now (makeKey digest policy i) d

end DecisionCache

/-! ## PolicyEngine rule queries (`src/celine/policies/engine/engine.py`)

`eval_query` runs the external Rego evaluator (the `regorus` library); we
model it as an oracle `query : String → Except String Json` mapping a query
path either to its JSON result (a *missing* rule yields a well-formed empty
result such as `[]`, not an exception) or to a raised evaluation error.
Python expressions that would raise inside the extraction helpers
(`exprs[0].get(...)` on a non-dict) are modelled as `.error`. -/

/-- `PolicyEngine._extract_bool(result, default)`.  Mirrors the nested
`isinstance`/truthiness checks of the source; a shape on which Python would
raise (indexing or `.get` on a non-list/non-dict) is an `.error`. -/
def extractBool (result : Json) (dflt : Bool) : Except String Bool :=
  match result with
  | .arr (item :: _) =>
      match item with
      | .obj members =>
          match Json.lookup "expressions" members with
          | some exprs =>
              if exprs.truthy then
                match exprs with
                | .arr (e0 :: _) =>
                    match e0 with
                    | .obj em =>
                        .ok (match Json.lookup "value" em with
                              | some v => v.truthy
                              | none => dflt)
                    | _ => .error "AttributeError: get"
                | _ => .error "TypeError: object is not subscriptable"
              else .ok dflt
          | none => .ok dflt
      | _ => .ok dflt
  | _ => .ok dflt

/-- `PolicyEngine._extract_string(result, default)`: like `_extract_bool`
but only a string-typed `value` is returned; anything else gives the
default. -/
def extractString (result : Json) (dflt : String) : Except String String :=
  match result with
  | .arr (item :: _) =>
      match item with
      | .obj members =>
          match Json.lookup "expressions" members with
          | some exprs =>
              if exprs.truthy then
                match exprs with
                | .arr (e0 :: _) =>
                    match e0 with
                    | .obj em =>
                        .ok (match Json.lookup "value" em with
                              | some (.str s) => s
                              | _ => dflt)
                    | _ => .error "AttributeError: get"
                | _ => .error "TypeError: object is not subscriptable"
              else .ok dflt
          | none => .ok dflt
      | _ => .ok dflt
  | _ => .ok dflt

/-- The element conversion inside `PolicyEngine._extract_filters`: an
element that is a dict is kept, with `field`/`operator` defaulting to `""`
when absent and `value` to `None`; any other element is skipped
(`isinstance(f, dict)` fails).  A present but non-string `field`/`operator`
makes the pydantic `FilterPredicate` constructor raise, modelled as
`.error`. -/
def filterOfElem : Json → Except String (Option FilterPredicate)
  | .obj em =>
      match Json.lookup "field" em with
      | some (.str field) =>
          match Json.lookup "operator" em with
          | some (.str op) =>
              .ok (some { field := field, op := op,
                          value := (Json.lookup "value" em).getD .null })
          | none =>
              .ok (some { field := field, op := "",
                          value := (Json.lookup "value" em).getD .null })
          | some _ => .error "ValidationError: operator"
      | none =>
          match Json.lookup "operator" em with
          | some (.str op) =>
              .ok (some { field := "", op := op,
                          value := (Json.lookup "value" em).getD .null })
          | none =>
              .ok (some { field := "", op := "",
                          value := (Json.lookup "value" em).getD .null })
          | some _ => .error "ValidationError: operator"
      | some _ => .error "ValidationError: field"
  | _ => .ok none

/-- The accumulation loop of `PolicyEngine._extract_filters` over the
elements of the `value` list. -/
def filtersOfElems : List Json → Except String (List FilterPredicate)
  | [] => .ok []
  | e :: rest =>
      match filterOfElem e with
      | .error err => .error err
      | .ok fOpt =>
          match filtersOfElems rest with
          | .error err => .error err
          | .ok tail =>
              match fOpt with
              | some f => .ok (f :: tail)
              | none => .ok tail

/-- `PolicyEngine._extract_filters(result)`. -/
def extractFilters (result : Json) : Except String (List FilterPredicate) :=
  match result with
  | .arr (item :: _) =>
      match item with
      | .obj members =>
          match Json.lookup "expressions" members with
          | some exprs =>
              if exprs.truthy then
                match exprs with
                | .arr (e0 :: _) =>
                    match e0 with
                    | .obj em =>
                        match Json.lookup "value" em with
                        | some (.arr elems) => filtersOfElems elems
                        | _ => .ok []
                    | _ => .error "AttributeError: get"
                | _ => .error "TypeError: object is not subscriptable"
              else .ok []
          | none => .ok []
      | _ => .ok []
  | _ => .ok []

/-- `PolicyEngine.evaluate_decision(policy_package, policy_input)`:
queries `allow` (a raised query error propagates), `reason` (same control
flow as the source: no try/except around it — but an *absent* rule is a
well-formed empty result, not an exception), and `filters` inside a
try/except whose handler substitutes the empty list. -/
def evaluateDecision (loaded : Bool) (query : String → Except String Json)
    (pkg : String) : Except String Decision :=
  if !loaded then .error "Policy engine not loaded"
  else
    match query ("data." ++ pkg ++ ".allow") with
    | .error e => .error e
    | .ok allowResult =>
        match extractBool allowResult false with
        | .error e => .error e
        | .ok allowed =>
            match query ("data." ++ pkg ++ ".reason") with
            | .error e => .error e
            | .ok reasonResult =>
                match extractString reasonResult "" with
                | .error e => .error e
                | .ok reason =>
                    let filters :=
                      match (match query ("data." ++ pkg ++ ".filters") with
                             | .error e =>
                                 (.error e : Except String (List FilterPredicate))
                             | .ok filtersResult =>
                                 extractFilters filtersResult) with
                      | .ok fs => fs
                      | .error _ => []
                    .ok { allowed := allowed, reason := reason, policy := pkg,
                          filters := filters, metadata := [] }

/-- `PolicyEngine.has_package` over the set of package names recorded at
load time. -/
def hasPackage (knownPackages : List String) (pkg : String) : Bool :=
  knownPackages.contains pkg

/-! ## Policy package routing -/

/-- `RESOURCE_POLICY_MAP` (`src/celine/policies/api/service.py`). -/
def RESOURCE_POLICY_MAP : List (String × String) :=
  [("dataset", "celine.dataset.access"),
   ("pipeline", "celine.pipeline.state"),
   ("dt", "celine.dt.access"),
   ("topic", "celine.mqtt.acl"),
   ("userdata", "celine.userdata.access")]

/-- Association lookup over a static string map (Python `dict.get`). -/
def mapGet (k : String) : List (String × String) → Option String
  | [] => none
  | (k', v) :: rest => if k' = k then some v else mapGet k rest

/-- `policy_package_for_resource` (`api/service.py`): static-map lookup;
an unmapped resource type raises `PolicyPackageError` (no map value is
falsy, so `dict.get` returning `None` is the only failing case). -/
def policyPackageForResource (resourceType : String) : Except String String :=
  match mapGet resourceType RESOURCE_POLICY_MAP with
  | some pkg => .ok pkg
  | none => .error ("Unknown resource type: " ++ resourceType)

/-- The static mapping inside `_get_policy_package`
(`src/celine/policies/routes/authorize.py`). -/
def AUTHORIZE_ROUTE_MAP : List (String × String) :=
  [("dataset", "celine.dataset.access"),
   ("pipeline", "celine.pipeline.state"),
   ("twin", "celine.twin.access"),
   ("topic", "celine.mqtt.acl"),
   ("userdata", "celine.userdata.access")]

/-- `_get_policy_package` (`routes/authorize.py`): static-map lookup; an
unmapped resource type raises HTTP 400. -/
def getPolicyPackage (resourceType : String) : Except String String :=
  match mapGet resourceType AUTHORIZE_ROUTE_MAP with
  | some pkg => .ok pkg
  | none => .error ("Unknown resource type: " ++ resourceType)

/-- Modelled from the spec: `resolve_policy_package` (PolicyRouter
`Resolve`, spec §4.2).  The repository's tests import it from
`celine.policies.routes.authorize`, but the function is absent from
`src/`; the packaged `_get_policy_package` above is an older static-map
revision.  Per the spec: derive the specialized package name by joining a
fixed namespace with the resource type; use it iff `store.HasPackage`;
otherwise fall back to the one well-known generic package; an unknown
resource type with no generic fallback configured raises
`UnknownResourceTypeError`. -/
def resolvePolicyPackage (storeHasPackage : String → Bool)
    (packageNamespace : String) (generic : Option String)
    (resourceType : String) : Except String String :=
  let specialized := packageNamespace ++ "." ++ resourceType
  if storeHasPackage specialized then .ok specialized
  else
    match generic with
    | some g => .ok g
    | none => .error ("UnknownResourceTypeError: " ++ resourceType)

/-! ## Subject extraction (`src/celine/policies/auth/subject.py`) -/

/-- `SubjectType` (models/core.py). -/
inductive SubjectType where
  | user
  | service
  | anonymous
deriving Repr, DecidableEq

/-- `Subject` (models/core.py).  `id` keeps the raw claim value. -/
structure Subject where
  id : Json
  type : SubjectType
  groups : List String
  scopes : List String
  claims : List (String × Json)

/-- Splitting a character list at every character satisfying `p`,
keeping empty pieces (the semantics of Python `str.split(sep)` with a
one-character separator when `p` tests for that separator). -/
def splitOnPred (p : Char → Bool) : List Char → List (List Char)
  | [] => [[]]
  | c :: rest =>
      let r := splitOnPred p rest
      if p c then [] :: r
      else
        match r with
        | h :: t => (c :: h) :: t
        | [] => [[c]]

/-- Python `s.split(sep)` for a single-character separator: empty pieces
are kept, and the empty string yields `[""]`. -/
def splitOnChar (sep : Char) : List Char → List (List Char) :=
  splitOnPred (fun c => c == sep)

/-- Python `s.strip(c)`: remove every leading and trailing occurrence of
the character. -/
def stripChar (c : Char) (l : List Char) : List Char :=
  ((l.dropWhile (· == c)).reverse.dropWhile (· == c)).reverse

/-- The per-group normalization in `SubjectExtractor._extract_groups`:
`g.strip("/").split("/")[-1] if g else ""` — strip path separators, keep
the leaf segment. -/
def normalizeGroup (g : String) : String :=
  if g = "" then ""
  else ⟨(splitOnChar '/' (stripChar '/' g.data)).getLastD []⟩

/-- Python `s.split()` (no separator): split on whitespace runs, dropping
empty pieces. -/
def pySplitWs (s : String) : List String :=
  ((splitOnPred Char.isWhitespace s.data).map
    (fun l => (⟨l⟩ : String))).filter (fun t => t ≠ "")

/-- The accumulation loop of `SubjectExtractor._extract_groups`: keep
string elements whose normalization is non-empty, in encounter order. -/
def collectGroups : List Json → List String
  | [] => []
  | .str g :: rest =>
      let normalized := normalizeGroup g
      if normalized ≠ "" then normalized :: collectGroups rest
      else collectGroups rest
  | _ :: rest => collectGroups rest

/-- `SubjectExtractor._extract_groups(claims)` (default `groups_claim`).
A missing or non-list claim yields `[]`. -/
def extractGroups (groupsClaim : String) (claims : List (String × Json)) :
    List String :=
  match Json.lookup groupsClaim claims with
  | some (.arr raw) => collectGroups raw
  | some _ => []
  | none => []

/-- `SubjectExtractor._extract_scopes(claims)` (default `scope_claim`):
a space-separated string is split on whitespace; a list keeps its string
elements; anything else yields `[]` (the `.get` default `""` splits to
`[]`). -/
def extractScopes (scopeClaim : String) (claims : List (String × Json)) :
    List String :=
  match Json.lookup scopeClaim claims with
  | some (.str raw) => (pySplitWs raw).filter (fun s => s ≠ "")
  | some (.arr raw) =>
      raw.filterMap (fun j => match j with | .str s => some s | _ => none)
  | some _ => []
  | none => []

/-- `SubjectExtractor.extract(claims)` with the default claim names
(`extract_subject_from_claims`). -/
def extractSubjectFromClaims (claims : List (String × Json)) : Subject :=
  let isService := (Json.lookup "client_id" claims).isSome
  let subjectId :=
    if isService then
      (Json.lookup "client_id" claims).getD
        ((Json.lookup "sub" claims).getD (.str "unknown"))
    else (Json.lookup "sub" claims).getD (.str "unknown")
  { id := subjectId
  , type := if isService then .service else .user
  , groups := extractGroups "groups" claims
  , scopes := extractScopes "scope" claims
  , claims := claims }

/-! ## Authorization header handling
(`src/celine/policies/routes/deps.py::get_subject`, identical logic in
`routes/authorize.py::get_subject`) -/

/-- HTTP error raised by a route handler. -/
inductive HttpError where
  | unauthorized (detail : String)
  | badRequest (detail : String)
  | internalError (detail : String)
deriving Repr, DecidableEq

/-- Python `str.lower()` (the ASCII case used for the scheme check),
character by character. -/
def pyLower (s : String) : String := ⟨s.data.map Char.toLower⟩

/-- `get_subject(authorization)`: no header — or an empty one, which is
falsy — means anonymous (`None`); otherwise the header must split into
exactly two whitespace-separated parts whose first is case-insensitively
`bearer`, else HTTP 401; a token failing validation is HTTP 401. -/
def getSubject (validate : String → Except String (List (String × Json)))
    (authorization : Option String) : Except HttpError (Option Subject) :=
  match authorization with
  | none => .ok none
  | some auth =>
      if auth = "" then .ok none
      else
        let parts := pySplitWs auth
        if parts.length ≠ 2 ∨ pyLower (parts.headD "") ≠ "bearer" then
          .error (.unauthorized "Invalid authorization header format")
        else
          match validate (parts.getD 1 "") with
          | .ok claims => .ok (some (extractSubjectFromClaims claims))
          | .error e => .error (.unauthorized e)

/-! ## JWKS key ring and token validation
(`src/celine/policies/auth/jwt.py`)

`PyJWKClient` instances are identified by the generation counter of
refreshes that created them; the network fetch and the key lookup inside
a client are oracles.  `lookupKey gen token = none` models
`PyJWKClientError` raised by `get_signing_key_from_jwt`. -/

/-- Mutable state of `JWKSCache`: the current client (as its generation
number, `none` before first use), the time of the last fetch, and how many
refreshes have happened. -/
structure JWKSState where
  client : Option Nat
  lastFetch : Nat
  fetches : Nat
deriving Repr, DecidableEq

/-- Observable events of one `get_signing_key` call. -/
inductive KeyEvent where
  | refresh (newGeneration : Nat)
  | lookup (generation : Nat)
deriving Repr, DecidableEq

/-- `JWKSCache._refresh()`: build a new `PyJWKClient` and stamp the fetch
time. -/
def jwksRefresh (s : JWKSState) (now : Nat) : JWKSState :=
  { client := some s.fetches, lastFetch := now, fetches := s.fetches + 1 }

/-- `JWKSCache._ensure_client()`: refresh when there is no client yet or
the last fetch is older than the TTL (`now - last_fetch > ttl`). -/
def jwksEnsureClient (ttl : Nat) (s : JWKSState) (now : Nat) :
    JWKSState × List KeyEvent :=
  match s.client with
  | none => (jwksRefresh s now, [.refresh s.fetches])
  | some _ =>
      if now - s.lastFetch > ttl then (jwksRefresh s now, [.refresh s.fetches])
      else (s, [])

/-- `JWKSCache.get_signing_key(token)`: ensure freshness, try the lookup,
and on `PyJWKClientError` force one refresh and retry once; a failure of
the retry propagates.  Returns the result, the new state and the event
trace. -/
def getSigningKey (lookupKey : Nat → String → Option String) (ttl : Nat)
    (s : JWKSState) (now : Nat) (token : String) :
    Except String String × JWKSState × List KeyEvent :=
  let (s1, evs1) := jwksEnsureClient ttl s now
  let gen1 := s1.client.getD 0
  match lookupKey gen1 token with
  | some k => (.ok k, s1, evs1 ++ [.lookup gen1])
  | none =>
      let s2 := jwksRefresh s1 now
      let gen2 := s2.client.getD 0
      match lookupKey gen2 token with
      | some k =>
          (.ok k, s2, evs1 ++ [.lookup gen1, .refresh s1.fetches, .lookup gen2])
      | none =>
          (.error "PyJWKClientError", s2,
           evs1 ++ [.lookup gen1, .refresh s1.fetches, .lookup gen2])

/-- Failure modes of the external `jwt.decode` call. -/
inductive JwtDecodeError where
  | expired
  | invalidIssuer
  | invalidAudience
  | invalidToken (msg : String)
  | other (msg : String)
deriving Repr, DecidableEq

/-- `JWTValidator.validate(token)`: obtain the signing key via the key
ring (any exception there, including a second `PyJWKClientError`, is
caught by the catch-all handler and re-raised as
`JWTValidationError("Validation failed: ...")`), then decode; each decode
failure maps to its typed `JWTValidationError` message. -/
def jwtValidate (lookupKey : Nat → String → Option String)
    (decode : String → String → Except JwtDecodeError (List (String × Json)))
    (ttl : Nat) (s : JWKSState) (now : Nat) (token : String) :
    Except String (List (String × Json)) × JWKSState × List KeyEvent :=
  match getSigningKey lookupKey ttl s now token with
  | (.error e, s', evs) => (.error ("Validation failed: " ++ e), s', evs)
  | (.ok key, s', evs) =>
      match decode key token with
      | .ok claims => (.ok claims, s', evs)
      | .error .expired => (.error "Token has expired", s', evs)
      | .error .invalidIssuer => (.error "Invalid issuer", s', evs)
      | .error .invalidAudience => (.error "Invalid audience", s', evs)
      | .error (.invalidToken m) => (.error ("Invalid token: " ++ m), s', evs)
      | .error (.other m) => (.error ("Validation failed: " ++ m), s', evs)

/-! ## Structured policy input (`models/core.py`, `engine.py::_build_input`) -/

/-- `Resource` (models/core.py); the enum member is kept as its string
value. -/
structure Resource where
  type : String
  id : String
  attributes : List (String × Json)

/-- `Action` (models/core.py). -/
structure Action where
  name : String
  context : List (String × Json)

/-- `PolicyInput` (models/core.py). -/
structure PolicyInput where
  subject : Option Subject
  resource : Resource
  action : Action
  environment : List (String × Json)

/-- The string value of a `SubjectType` enum member. -/
def SubjectType.str : SubjectType → String
  | .user => "user"
  | .service => "service"
  | .anonymous => "anonymous"

/-- `PolicyEngine._build_input(policy_input)`: the JSON-shaped dict handed
to the evaluator and to the decision cache; `subject` is `None` for
anonymous callers. -/
def buildInput (pi : PolicyInput) : InputDict :=
  { subject := some (match pi.subject with
      | some s =>
          Json.obj [("id", s.id), ("type", .str s.type.str),
                    ("groups", .arr (s.groups.map .str)),
                    ("scopes", .arr (s.scopes.map .str)),
                    ("claims", .obj s.claims)]
      | none => .null)
  , resource := some (Json.obj
      [("type", .str pi.resource.type), ("id", .str pi.resource.id),
       ("attributes", .obj pi.resource.attributes)])
  , action := some (Json.obj
      [("name", .str pi.action.name), ("context", .obj pi.action.context)])
  , environment := some pi.environment }

/-! ## CachedPolicyEngine (`src/celine/policies/engine/cache.py`) -/

/-- `CachedPolicyEngine.evaluate_decision(policy_package, policy_input,
skip_cache)`: try the cache (unless disabled or skipped), evaluate on a
miss via the wrapped engine (an oracle here), and store the fresh result.
Returns `(decision, was_cached)` plus the updated cache. -/
def cachedEvaluateDecision (digest : String → String) (cacheEnabled : Bool)
    (engineEval : String → PolicyInput → Except String Decision)
    (c : DecisionCache) (now : Nat) (pkg : String) (pi : PolicyInput)
    (skipCache : Bool) :
    Except String (Decision × Bool) × DecisionCache :=
  let inputDict := buildInput pi
  if cacheEnabled && !skipCache then
    match DecisionCache.get digest c now pkg inputDict with
    | (some d, c') => (.ok (d, true), c')
    | (none, c') =>
        match engineEval pkg pi with
        | .ok d => (.ok (d, false), DecisionCache.set digest c' now pkg inputDict d)
        | .error e => (.error e, c')
  else
    match engineEval pkg pi with
    | .ok d => (.ok (d, false), c)
    | .error e => (.error e, c)

/-! ## Audit sink (`src/celine/policies/audit/logger.py`) and the API
pipeline (`src/celine/policies/api/service.py`) -/

/-- One call made to the `AuditLogger` (wall-clock latency omitted). -/
inductive AuditEvent where
  | decision (requestId : String) (d : Decision) (input : PolicyInput)
      (cached : Bool) (sourceService : Option String)
  | error (requestId : String) (msg : String) (input : Option PolicyInput)
      (sourceService : Option String)

/-- Whether an audit event is a `log_error` call carrying the given
request id and policy input. -/
def AuditEvent.isErrorFor (requestId : String) (pi : PolicyInput) :
    AuditEvent → Prop
  | .error r _ i _ => r = requestId ∧ i = some pi
  | .decision .. => False

/-- `PolicyAPI.evaluate`: evaluate through the cached engine; on success
log the decision and return it; on any raised exception log the error
(with the request id and the policy input) via `AuditLogger.log_error` and
re-raise.  Returns the result, the updated cache and the audit calls
made. -/
def policyApiEvaluate (digest : String → String) (cacheEnabled : Bool)
    (engineEval : String → PolicyInput → Except String Decision)
    (c : DecisionCache) (now : Nat) (requestId : String) (pkg : String)
    (pi : PolicyInput) (sourceService : Option String) (skipCache : Bool) :
    Except String (Decision × Bool) × DecisionCache × List AuditEvent :=
  match cachedEvaluateDecision digest cacheEnabled engineEval c now pkg pi skipCache with
  | (.ok (d, cached), c') =>
      (.ok (d, cached), c', [.decision requestId d pi cached sourceService])
  | (.error e, c') =>
      (.error e, c', [.error requestId e (some pi) sourceService])

/-! ## MQTT access-mask decoding and ACL check
(`src/celine/mqtt_auth/routes.py`, `src/celine/policies/routes/mqtt.py`) -/

/-- Response body returned to mosquitto-go-auth. -/
structure MqttResponse where
  ok : Bool
  reason : String
deriving Repr, DecidableEq

/-- `_acc_to_actions` (`src/celine/mqtt_auth/routes.py`): decode the
mosquitto access bitmask in the fixed order subscribe (`0x04`), publish
(`0x02`), read (`0x01`); an empty decode falls back to `["unknown"]`. -/
def accToActions (acc : Nat) : List String :=
  let actions :=
    (if acc &&& 0x04 ≠ 0 then ["subscribe"] else []) ++
    (if acc &&& 0x02 ≠ 0 then ["publish"] else []) ++
    (if acc &&& 0x01 ≠ 0 then ["read"] else [])
  if actions.isEmpty then ["unknown"] else actions

/-- `_acc_to_action` (`src/celine/policies/routes/mqtt.py`): the older
single-action mapping (`1` and `4` to subscribe, `2` to publish, `3` to
subscribe, anything else unknown). -/
def accToAction (acc : Nat) : String :=
  if acc = 1 ∨ acc = 4 then "subscribe"
  else if acc = 2 then "publish"
  else if acc = 3 then "subscribe"
  else "unknown"

/-- `_get_token_from_header` (`mqtt_auth/routes.py`): accept a header
whose lowercase form starts with `"bearer "` and return the rest,
stripped. -/
def getTokenFromHeader (authorization : Option String) : Option String :=
  match authorization with
  | some a => if a.toLower.startsWith "bearer " then some ((a.drop 7).trim) else none
  | none => none

/-- The per-action loop of `mqtt_acl` (`mqtt_auth/routes.py` lines
181-214): evaluate each action against the MQTT policy package with the
topic as the resource id; return the first denial's reason with `ok =
false`; any engine exception denies; all actions allowed returns the
synthetic authorized response.  `aclPolicyInput` is the `PolicyInput`
built for one action inside the loop. -/
def aclPolicyInput (subject : Subject) (topic requestId : String)
    (now : Nat) (actionName : String) : PolicyInput :=
  { subject := some subject
  , resource := { type := "topic", id := topic, attributes := [] }
  , action := { name := actionName, context := [] }
  , environment := [("request_id", .str requestId), ("timestamp", .num now)] }

/-- The per-action loop of `mqtt_acl`, see `aclPolicyInput`. -/
def mqttAclActions (engineEval : String → PolicyInput → Except String Decision)
    (pkg : String) (subject : Subject) (topic requestId : String) (now : Nat) :
    List String → MqttResponse
  | [] => { ok := true, reason := "authorized" }
  | actionName :: rest =>
      match engineEval pkg (aclPolicyInput subject topic requestId now actionName) with
      | .ok d =>
          if !d.allowed then { ok := false, reason := d.reason }
          else mqttAclActions engineEval pkg subject topic requestId now rest
      | .error e => { ok := false, reason := "check failed: " ++ e }

/-- `mqtt_acl` (`mqtt_auth/routes.py`): token extraction, subject
extraction (an oracle over the external SDK's `JwtUser`), then the action
loop over the decoded access mask. -/
def mqttAcl (subjectOf : String → Option Subject)
    (engineEval : String → PolicyInput → Except String Decision)
    (pkg : String) (authorization : Option String) (topic : String)
    (acc : Nat) (requestId : String) (now : Nat) : MqttResponse :=
  match getTokenFromHeader authorization with
  | none => { ok := false, reason := "missing token" }
  | some token =>
      match subjectOf token with
      | none => { ok := false, reason := "invalid credentials" }
      | some subject =>
          mqttAclActions engineEval pkg subject topic requestId now
            (accToActions acc)

/-! ## Concrete fixtures used by witnesses and counterexamples -/

/-- A well-formed single-value Rego query result, as `regorus` returns it:
`[{"expressions": [{"value": v}]}]`. -/
def resultWrap (v : Json) : Json :=
  .arr [.obj [("expressions", .arr [.obj [("value", v)]])]]

/-- A query oracle under which every rule is missing (empty result) except
`filters` of package `p`, whose value is a one-element list containing an
empty dict — an element with no `field`, `operator` or `value`. -/
def incompleteFilterQuery (path : String) : Except String Json :=
  if path = "data.p.filters" then .ok (resultWrap (.arr [.obj []]))
  else .ok (.arr [])

/-- Two optional environment dicts that agree on their stable parts: both
absent, or both present with the same stable bindings (as sets; Python
dicts have unique keys, modelled by the `Nodup` condition). -/
def EnvAgree : Option (List (String × Json)) → Option (List (String × Json)) → Prop
  | none, none => True
  | some e1, some e2 =>
      (stableEnvFilter e1).Perm (stableEnvFilter e2) ∧
      ((stableEnvFilter e1).map Prod.fst).Nodup
  | _, _ => False

/-! # Theorems -/

/-- C5: the spec's access-mask decoding (bit `0x01` = read, `0x02` =
publish, `0x04` = subscribe, fixed order subscribe/publish/read, zero mask
to `["unknown"]`) is what `_acc_to_actions` in
`src/celine/mqtt_auth/routes.py` implements — and what
`tests/test_mqtt_acc.py` asserts — but the packaged
`_acc_to_action` in `src/celine/policies/routes/mqtt.py` diverges: it
returns the single action `"subscribe"` for mask `1`, not `["read"]`. -/
theorem acc_decoding_divergence :
    accToActions 0 = ["unknown"] ∧
    accToActions 1 = ["read"] ∧
    accToActions 2 = ["publish"] ∧
    accToActions 4 = ["subscribe"] ∧
    accToActions 7 = ["subscribe", "publish", "read"] ∧
    accToAction 1 = "subscribe" ∧
    accToAction 1 ≠ "read" := by
  refine ⟨rfl, rfl, rfl, rfl, rfl, rfl, ?_⟩
  decide

/-- C2: package resolution (spec-modelled `resolve_policy_package`) uses
the specialized package — the fixed namespace joined with the resource
type — exactly when the store has it, otherwise the generic fallback, and
raises an unknown-resource-type error when no fallback is configured. -/
theorem resolve_policy_package_routing :
    ∀ (storeHasPackage : String → Bool) (ns rt : String)
      (generic : Option String),
    (storeHasPackage (ns ++ "." ++ rt) = true →
      resolvePolicyPackage storeHasPackage ns generic rt = .ok (ns ++ "." ++ rt)) ∧
    (∀ g, storeHasPackage (ns ++ "." ++ rt) = false → generic = some g →
      resolvePolicyPackage storeHasPackage ns generic rt = .ok g) ∧
    (storeHasPackage (ns ++ "." ++ rt) = false → generic = none →
      resolvePolicyPackage storeHasPackage ns generic rt =
        .error ("UnknownResourceTypeError: " ++ rt)) := by
  intro storeHasPackage ns rt generic
  refine ⟨fun h => ?_, fun g h hg => ?_, fun h hg => ?_⟩
  · simp [resolvePolicyPackage, h]
  · simp [resolvePolicyPackage, h, hg]
  · simp [resolvePolicyPackage, h, hg]

/-- Witness for C2: with the routing-test store (`celine.dataset` loaded,
generic fallback `celine.authz`), `dataset` routes to the specialized
package, `dt` to the fallback, and an unconfigured deployment with no
fallback errors. -/
theorem resolve_policy_package_routing_witness :
    resolvePolicyPackage (hasPackage ["celine.dataset", "celine.authz"])
        "celine" (some "celine.authz") "dataset" = .ok "celine.dataset" ∧
    resolvePolicyPackage (hasPackage ["celine.dataset", "celine.authz"])
        "celine" (some "celine.authz") "dt" = .ok "celine.authz" ∧
    resolvePolicyPackage (hasPackage ["celine.dataset", "celine.authz"])
        "celine" none "dt" = .error ("UnknownResourceTypeError: " ++ "dt") :=
  ⟨(resolve_policy_package_routing _ "celine" "dataset" _).1 (by decide),
   (resolve_policy_package_routing _ "celine" "dt" _).2.1 "celine.authz" (by decide) rfl,
   (resolve_policy_package_routing _ "celine" "dt" _).2.2 (by decide) rfl⟩

/-- C1: when policy evaluation raises, `PolicyAPI.evaluate` logs the
failure via `AuditLogger.log_error` with the request id and the policy
input, returns the error to the caller, and in particular never returns a
Decision (allowed or otherwise); with the cache skipped, an engine error
is exactly what evaluation raises. -/
theorem policy_api_fail_closed :
    ∀ (digest : String → String) (cacheEnabled : Bool)
      (engineEval : String → PolicyInput → Except String Decision)
      (c : DecisionCache) (now : Nat) (requestId pkg : String)
      (pi : PolicyInput) (sourceService : Option String) (skipCache : Bool)
      (e : String),
    ((cachedEvaluateDecision digest cacheEnabled engineEval c now pkg pi
        skipCache).1 = .error e →
      (policyApiEvaluate digest cacheEnabled engineEval c now requestId pkg
          pi sourceService skipCache).1 = .error e ∧
      (∀ d cached,
        (policyApiEvaluate digest cacheEnabled engineEval c now requestId pkg
            pi sourceService skipCache).1 ≠ .ok (d, cached)) ∧
      ∃ ev ∈ (policyApiEvaluate digest cacheEnabled engineEval c now requestId
          pkg pi sourceService skipCache).2.2,
        ev.isErrorFor requestId pi) ∧
    (engineEval pkg pi = .error e →
      (cachedEvaluateDecision digest cacheEnabled engineEval c now pkg pi
        true).1 = .error e) := by
  intro digest cacheEnabled engineEval c now requestId pkg pi sourceService
    skipCache e
  constructor
  · intro h
    rcases hc : cachedEvaluateDecision digest cacheEnabled engineEval c now
        pkg pi skipCache with ⟨res, c'⟩
    rw [hc] at h
    simp only at h
    subst h
    refine ⟨?_, ?_, ?_⟩
    · simp [policyApiEvaluate, hc]
    · intro d cached
      simp [policyApiEvaluate, hc]
    · refine ⟨.error requestId e (some pi) sourceService, ?_, rfl, rfl⟩
      simp [policyApiEvaluate, hc]
  · intro h
    simp [cachedEvaluateDecision, h]

/-- Witness for C1: a concrete engine failure (`"regorus panic"`) with the
cache skipped produces an error result and an error audit event carrying
the request id and input. -/
theorem policy_api_fail_closed_witness :
    ((cachedEvaluateDecision (fun _ => "") true
        (fun _ _ => .error "regorus panic") (DecisionCache.init 10 60) 0
        "celine.dataset.access"
        { subject := none
        , resource := { type := "dataset", id := "d1", attributes := [] }
        , action := { name := "read", context := [] }
        , environment := [] } true).1 = .error "regorus panic") ∧
    ((policyApiEvaluate (fun _ => "") true
        (fun _ _ => .error "regorus panic") (DecisionCache.init 10 60) 0
        "req-1" "celine.dataset.access"
        { subject := none
        , resource := { type := "dataset", id := "d1", attributes := [] }
        , action := { name := "read", context := [] }
        , environment := [] } none true).1 = .error "regorus panic") := by
  have h := policy_api_fail_closed (fun _ => "") true
    (fun _ _ => .error "regorus panic") (DecisionCache.init 10 60) 0
    "req-1" "celine.dataset.access"
    { subject := none
    , resource := { type := "dataset", id := "d1", attributes := [] }
    , action := { name := "read", context := [] }
    , environment := [] } none true "regorus panic"
  have h2 := h.2 rfl
  exact ⟨h2, (h.1 h2).1⟩

/-- C6: the MQTT ACL loop evaluates each decoded action independently in
list order against the MQTT policy package with the topic as the resource
id, stops at the first denial and returns that denying decision's reason
(`ok = false`); when every decoded action is allowed it returns the single
synthetic authorized response; the decoded list is always `["unknown"]` or
a subsequence of the fixed order `subscribe, publish, read`; and `mqtt_acl`
runs the loop over exactly the decoded access mask. -/
theorem mqtt_acl_first_denial :
    ∀ (engineEval : String → PolicyInput → Except String Decision)
      (subjectOf : String → Option Subject)
      (pkg : String) (subject : Subject) (topic requestId : String)
      (now : Nat),
    (∀ pre a rest (d : Decision),
      (∀ x ∈ pre, ∃ dx,
        engineEval pkg (aclPolicyInput subject topic requestId now x) = .ok dx ∧
        dx.allowed = true) →
      engineEval pkg (aclPolicyInput subject topic requestId now a) = .ok d →
      d.allowed = false →
      mqttAclActions engineEval pkg subject topic requestId now
        (pre ++ a :: rest) = { ok := false, reason := d.reason }) ∧
    (∀ as,
      (∀ x ∈ as, ∃ dx,
        engineEval pkg (aclPolicyInput subject topic requestId now x) = .ok dx ∧
        dx.allowed = true) →
      mqttAclActions engineEval pkg subject topic requestId now as =
        { ok := true, reason := "authorized" }) ∧
    (∀ acc : Nat, accToActions acc = ["unknown"] ∨
      (accToActions acc).Sublist ["subscribe", "publish", "read"]) ∧
    (∀ authorization token acc,
      getTokenFromHeader authorization = some token →
      subjectOf token = some subject →
      mqttAcl subjectOf engineEval pkg authorization topic acc requestId now =
        mqttAclActions engineEval pkg subject topic requestId now
          (accToActions acc)) := by
  intro engineEval subjectOf pkg subject topic requestId now
  refine ⟨?_, ?_, ?_, ?_⟩
  · intro pre
    induction pre with
    | nil =>
        intro a rest d _ ha hd
        simp [mqttAclActions, ha, hd]
    | cons x pre ih =>
        intro a rest d hpre ha hd
        obtain ⟨dx, hdx, hallow⟩ := hpre x (List.mem_cons_self x pre)
        have tail := ih a rest d
          (fun y hy => hpre y (List.mem_cons_of_mem x hy)) ha hd
        simp [mqttAclActions, hdx, hallow, tail]
  · intro as
    induction as with
    | nil => intro _; rfl
    | cons x rest ih =>
        intro hall
        obtain ⟨dx, hdx, hallow⟩ := hall x (List.mem_cons_self x rest)
        have tail := ih (fun y hy => hall y (List.mem_cons_of_mem x hy))
        simp [mqttAclActions, hdx, hallow, tail]
  · intro acc
    by_cases h4 : acc &&& 0x04 ≠ 0 <;> by_cases h2 : acc &&& 0x02 ≠ 0 <;>
      by_cases h1 : acc &&& 0x01 ≠ 0 <;>
      simp only [accToActions] <;>
      first
        | (rw [if_pos h4, if_pos h2, if_pos h1]; decide)
        | (rw [if_pos h4, if_pos h2, if_neg h1]; decide)
        | (rw [if_pos h4, if_neg h2, if_pos h1]; decide)
        | (rw [if_pos h4, if_neg h2, if_neg h1]; decide)
        | (rw [if_neg h4, if_pos h2, if_pos h1]; decide)
        | (rw [if_neg h4, if_pos h2, if_neg h1]; decide)
        | (rw [if_neg h4, if_neg h2, if_pos h1]; decide)
        | (rw [if_neg h4, if_neg h2, if_neg h1]; decide)
  · intro authorization token acc htok hsub
    simp [mqttAcl, htok, hsub]

/-- Witness for C6: with acc mask 7 (`subscribe, publish, read`), an
engine allowing `subscribe` but denying `publish` with reason
`"scope missing"`, the ACL check returns that denial without evaluating
further, and an all-allowing engine yields the synthetic authorized
response. -/
theorem mqtt_acl_first_denial_witness :
    mqttAclActions
      (fun _ pi =>
        if pi.action.name = "publish" then
          .ok { allowed := false, reason := "scope missing", policy := "p",
                filters := [], metadata := [] }
        else
          .ok { allowed := true, reason := "ok", policy := "p",
                filters := [], metadata := [] })
      "celine.mqtt.acl"
      { id := .str "u", type := .user, groups := [], scopes := [], claims := [] }
      "t/1" "r1" 5 (accToActions 7) =
      { ok := false, reason := "scope missing" } ∧
    mqttAclActions
      (fun _ _ =>
        .ok { allowed := true, reason := "ok", policy := "p",
              filters := [], metadata := [] })
      "celine.mqtt.acl"
      { id := .str "u", type := .user, groups := [], scopes := [], claims := [] }
      "t/1" "r1" 5 (accToActions 7) =
      { ok := true, reason := "authorized" } := by
  constructor
  · have h := (mqtt_acl_first_denial
      (fun _ pi =>
        if pi.action.name = "publish" then
          .ok { allowed := false, reason := "scope missing", policy := "p",
                filters := [], metadata := [] }
        else
          .ok { allowed := true, reason := "ok", policy := "p",
                filters := [], metadata := [] })
      (fun _ => none) "celine.mqtt.acl"
      { id := .str "u", type := .user, groups := [], scopes := [], claims := [] }
      "t/1" "r1" 5).1 ["subscribe"] "publish" ["read"]
      { allowed := false, reason := "scope missing", policy := "p",
        filters := [], metadata := [] }
    have hpre : ∀ x ∈ ["subscribe"], ∃ dx,
        (fun _ pi =>
          if pi.action.name = "publish" then
            (.ok { allowed := false, reason := "scope missing", policy := "p",
                   filters := [], metadata := [] } : Except String Decision)
          else
            .ok { allowed := true, reason := "ok", policy := "p",
                  filters := [], metadata := [] })
          "celine.mqtt.acl"
          (aclPolicyInput
            { id := .str "u", type := .user, groups := [], scopes := [],
              claims := [] } "t/1" "r1" 5 x) = .ok dx ∧ dx.allowed = true := by
      intro x hx
      simp only [List.mem_singleton] at hx
      subst hx
      exact ⟨_, rfl, rfl⟩
    exact h hpre rfl rfl
  · exact (mqtt_acl_first_denial _ (fun _ => none) "celine.mqtt.acl" _ "t/1"
      "r1" 5).2.1 (accToActions 7) (fun x _ => ⟨_, rfl, rfl⟩)

/-- C4: `JWKSCache.get_signing_key` first ensures the key source is fresh
(refreshing exactly when there is no client yet or the last fetch is older
than the TTL); a successful lookup performs no forced refresh; a lookup
failure triggers exactly one forced refresh and exactly one retry; a
failure of that retry propagates, and `JWTValidator.validate` surfaces it
as a validation error.  In every case at most two lookups happen. -/
theorem key_ring_single_retry :
    ∀ (lookupKey : Nat → String → Option String)
      (decode : String → String → Except JwtDecodeError (List (String × Json)))
      (ttl : Nat) (s : JWKSState) (now : Nat) (token : String),
    ((s.client = none ∨ now - s.lastFetch > ttl) →
      jwksEnsureClient ttl s now = (jwksRefresh s now, [.refresh s.fetches])) ∧
    (∀ g, s.client = some g → now - s.lastFetch ≤ ttl →
      jwksEnsureClient ttl s now = (s, [])) ∧
    (∀ s1 evs1, jwksEnsureClient ttl s now = (s1, evs1) →
      (∀ k, lookupKey (s1.client.getD 0) token = some k →
        getSigningKey lookupKey ttl s now token =
          (.ok k, s1, evs1 ++ [.lookup (s1.client.getD 0)])) ∧
      (∀ k, lookupKey (s1.client.getD 0) token = none →
        lookupKey ((jwksRefresh s1 now).client.getD 0) token = some k →
        getSigningKey lookupKey ttl s now token =
          (.ok k, jwksRefresh s1 now,
           evs1 ++ [.lookup (s1.client.getD 0), .refresh s1.fetches,
                    .lookup ((jwksRefresh s1 now).client.getD 0)])) ∧
      (lookupKey (s1.client.getD 0) token = none →
        lookupKey ((jwksRefresh s1 now).client.getD 0) token = none →
        (getSigningKey lookupKey ttl s now token).1 = .error "PyJWKClientError" ∧
        (jwtValidate lookupKey decode ttl s now token).1 =
          .error ("Validation failed: " ++ "PyJWKClientError"))) ∧
    ((getSigningKey lookupKey ttl s now token).2.2.countP
        (fun e => match e with | .lookup _ => true | _ => false) ≤ 2) := by
  intro lookupKey decode ttl s now token
  have hens : ∀ s1 evs1, jwksEnsureClient ttl s now = (s1, evs1) →
      evs1 = [] ∨ evs1 = [.refresh s.fetches] := by
    intro s1 evs1 h
    unfold jwksEnsureClient at h
    rcases hc : s.client with _ | g
    · rw [hc] at h
      exact Or.inr (congrArg Prod.snd h).symm
    · rw [hc] at h
      by_cases ht : now - s.lastFetch > ttl
      · rw [if_pos ht] at h
        exact Or.inr (congrArg Prod.snd h).symm
      · rw [if_neg ht] at h
        exact Or.inl (congrArg Prod.snd h).symm
  refine ⟨?_, ?_, ?_, ?_⟩
  · intro h
    rcases h with h | h
    · simp [jwksEnsureClient, h]
    · unfold jwksEnsureClient
      rcases hc : s.client with _ | g
      · rfl
      · rw [if_pos h]
  · intro g hg ht
    simp [jwksEnsureClient, hg, Nat.not_lt.mpr ht]
  · intro s1 evs1 hE
    refine ⟨?_, ?_, ?_⟩
    · intro k hk
      unfold getSigningKey
      rw [hE]
      simp only [hk]
    · intro k h1 h2
      unfold getSigningKey
      rw [hE]
      simp only [h1, h2]
    · intro h1 h2
      constructor
      · unfold getSigningKey
        rw [hE]
        simp only [h1, h2]
      · unfold jwtValidate getSigningKey
        rw [hE]
        simp only [h1, h2]
  · rcases hE : jwksEnsureClient ttl s now with ⟨s1, evs1⟩
    have hcount : evs1.countP
        (fun e => match e with | KeyEvent.lookup _ => true | _ => false) = 0 := by
      rcases hens s1 evs1 hE with h | h <;> subst h <;> rfl
    unfold getSigningKey
    rw [hE]
    rcases h1 : lookupKey (s1.client.getD 0) token with _ | k
    · rcases h2 : lookupKey ((jwksRefresh s1 now).client.getD 0) token with _ | k
      · simp [h1, h2, List.countP_append, hcount, List.countP_cons]
      · simp [h1, h2, List.countP_append, hcount, List.countP_cons]
    · simp [h1, List.countP_append, hcount, List.countP_cons]

/-- Witness for C4: with a lookup oracle that fails for generation 0 and
succeeds for generation 1 (a key rotation), a cold key ring refreshes
once for freshness, fails its first lookup, force-refreshes exactly once
and succeeds on the single retry; with an always-failing oracle the
validator returns a validation error. -/
theorem key_ring_single_retry_witness :
    getSigningKey (fun gen _ => if gen = 0 then none else some "K1") 3600
        { client := none, lastFetch := 0, fetches := 0 } 10 "tok" =
      (.ok "K1", { client := some 1, lastFetch := 10, fetches := 2 },
       [.refresh 0, .lookup 0, .refresh 1, .lookup 1]) ∧
    (jwtValidate (fun _ _ => none) (fun _ _ => .ok []) 3600
        { client := none, lastFetch := 0, fetches := 0 } 10 "tok").1 =
      .error ("Validation failed: " ++ "PyJWKClientError") := by
  have h := key_ring_single_retry (fun gen _ => if gen = 0 then none else some "K1")
    (fun _ _ => .ok []) 3600 { client := none, lastFetch := 0, fetches := 0 }
    10 "tok"
  have h2 := key_ring_single_retry (fun _ _ => none)
    (fun _ _ => .ok []) 3600 { client := none, lastFetch := 0, fetches := 0 }
    10 "tok"
  constructor
  · exact ((h.2.2.1 _ _ rfl).2.1 "K1" rfl rfl).trans rfl
  · exact ((h2.2.2.1 _ _ rfl).2.2 rfl rfl).2

/-- C8 counterexample: a `filters` element that contains none of
`field`/`operator`/`value` (an empty dict) is *not* skipped — the source
only skips non-dict elements and defaults missing keys — so the resulting
decision carries the predicate `{field: "", operator: "", value: null}`
instead of an empty filter list, refuting "each element that does not
contain field/operator/value skipped". -/
theorem filters_incomplete_element_kept :
    evaluateDecision true incompleteFilterQuery "p" =
      .ok { allowed := false, reason := "", policy := "p",
            filters := [{ field := "", op := "", value := .null }],
            metadata := [] } ∧
    [({ field := "", op := "", value := .null } : FilterPredicate)] ≠ [] :=
  ⟨rfl, List.cons_ne_nil _ _⟩

/-- C8 amended: `evaluate_decision` queries `allow` (default `false`),
`reason` (default `""`) and `filters` (default `[]`); a missing optional
rule never raises — and even a query-time failure of the `filters` query
is swallowed — while a query-time failure on the `allow` query itself
propagates to the caller.  In the filter list, each element that is not a
map is skipped; a map element is kept with missing `field`/`operator`
defaulted to `""` and missing `value` to `null`. -/
theorem evaluate_decision_rule_defaults :
    ∀ (query : String → Except String Json) (pkg : String),
    (∀ e, query ("data." ++ pkg ++ ".allow") = .error e →
      evaluateDecision true query pkg = .error e) ∧
    (∀ a b, query ("data." ++ pkg ++ ".allow") = .ok a →
      extractBool a false = .ok b →
      query ("data." ++ pkg ++ ".reason") = .ok (.arr []) →
      (query ("data." ++ pkg ++ ".filters") = .ok (.arr []) ∨
        ∃ e, query ("data." ++ pkg ++ ".filters") = .error e) →
      evaluateDecision true query pkg =
        .ok { allowed := b, reason := "", policy := pkg, filters := [],
              metadata := [] }) ∧
    (extractBool (.arr []) false = .ok false ∧
      extractString (.arr []) "" = .ok "" ∧
      extractFilters (.arr []) = .ok []) ∧
    (∀ (j : Json) rest, (∀ m, j ≠ .obj m) →
      filtersOfElems (j :: rest) = filtersOfElems rest) ∧
    (∀ em rest, Json.lookup "field" em = none →
      Json.lookup "operator" em = none →
      filtersOfElems (.obj em :: rest) =
        (filtersOfElems rest).map
          (fun fs =>
            ({ field := "", op := "",
               value := (Json.lookup "value" em).getD .null } : FilterPredicate)
            :: fs)) := by
  intro query pkg
  refine ⟨?_, ?_, ⟨rfl, rfl, rfl⟩, ?_, ?_⟩
  · intro e h
    simp [evaluateDecision, h]
  · intro a b ha hb hr hf
    rcases hf with hf | ⟨e, hf⟩ <;>
      simp [evaluateDecision, ha, hb, hr, hf, extractString, extractFilters]
  · intro j rest hj
    have hskip : filterOfElem j = .ok none := by
      cases j with
      | obj m => exact absurd rfl (hj m)
      | null => rfl
      | bool b => rfl
      | num n => rfl
      | str s => rfl
      | arr l => rfl
    rcases ht : filtersOfElems rest with e | fs <;>
      simp [filtersOfElems, hskip, ht]
  · intro em rest hfield hop
    have helem : filterOfElem (.obj em) =
        .ok (some { field := "", op := "",
                    value := (Json.lookup "value" em).getD .null }) := by
      simp [filterOfElem, hfield, hop]
    rcases ht : filtersOfElems rest with e | fs <;>
      simp [filtersOfElems, helem, ht, Except.map]

/-- Witness for C8: all rules missing yields the default decision; an
`allow` query failure propagates; a unit-type element is skipped while an
empty-dict element is defaulted. -/
theorem evaluate_decision_rule_defaults_witness :
    evaluateDecision true (fun _ => .ok (.arr [])) "p" =
      .ok { allowed := false, reason := "", policy := "p", filters := [],
            metadata := [] } ∧
    evaluateDecision true (fun _ => .error "rego compile failure") "p" =
      .error "rego compile failure" ∧
    filtersOfElems [.num 3] = filtersOfElems [] ∧
    filtersOfElems [.obj []] =
      (filtersOfElems []).map
        (fun fs =>
          ({ field := "", op := "", value := (Json.lookup "value" []).getD .null }
            : FilterPredicate) :: fs) :=
  ⟨(evaluate_decision_rule_defaults (fun _ => .ok (.arr [])) "p").2.1
      (.arr []) false rfl rfl rfl (Or.inl rfl),
   (evaluate_decision_rule_defaults (fun _ => .error "rego compile failure")
      "p").1 "rego compile failure" rfl,
   (evaluate_decision_rule_defaults (fun _ => .ok (.arr [])) "p").2.2.2.1
      (.num 3) [] (fun m => by simp),
   (evaluate_decision_rule_defaults (fun _ => .ok (.arr [])) "p").2.2.2.2
      [] [] rfl rfl⟩

/-- C7 counterexample: `_extract_groups` neither deduplicates nor sorts —
the claims `{groups: ["/a/x", "x"]}` yield the duplicate-carrying list
`["x", "x"]` — and `_extract_scopes` preserves encounter order, so
`"b a"` stays `["b", "a"]`, unsorted. -/
theorem subject_lists_not_dedup_sorted :
    extractGroups "groups" [("groups", .arr [.str "/a/x", .str "x"])] =
      ["x", "x"] ∧
    ¬ (extractGroups "groups"
        [("groups", .arr [.str "/a/x", .str "x"])]).Nodup ∧
    extractScopes "scope" [("scope", .str "b a")] = ["b", "a"] ∧
    ¬ List.Sorted (· ≤ ·) (extractScopes "scope" [("scope", .str "b a")]) := by
  refine ⟨rfl, ?_, rfl, ?_⟩
  · intro h
    rw [show extractGroups "groups" [("groups", .arr [.str "/a/x", .str "x"])] =
        ["x", "x"] from rfl] at h
    simp [List.nodup_cons] at h
  · intro h
    rw [show extractScopes "scope" [("scope", .str "b a")] = ["b", "a"] from
        rfl] at h
    have hba := List.rel_of_sorted_cons h "a" (List.mem_singleton_self "a")
    revert hba
    rw [String.le_iff_toList_le]
    decide

/-- `splitOnPred` never returns the empty list of pieces. -/
theorem splitOnPred_ne_nil (p : Char → Bool) :
    ∀ (l : List Char), splitOnPred p l ≠ [] := by
  intro l
  cases l with
  | nil => simp [splitOnPred]
  | cons x rest =>
      by_cases hx : p x
      · simp [splitOnPred, hx]
      · rcases hr : splitOnPred p rest with _ | ⟨h0, t⟩ <;>
          simp [splitOnPred, hx, hr]

/-- Every piece produced by `splitOnPred` is separator-free: no character
of any piece satisfies the split predicate. -/
theorem splitOnPred_pieces (p : Char → Bool) :
    ∀ (l : List Char) piece, piece ∈ splitOnPred p l →
      ∀ c ∈ piece, p c = false := by
  intro l
  induction l with
  | nil =>
      intro piece hp c hc
      simp only [splitOnPred, List.mem_singleton] at hp
      subst hp
      cases hc
  | cons x rest ih =>
      intro piece hp c hc
      by_cases hx : p x
      · rw [show splitOnPred p (x :: rest) = [] :: splitOnPred p rest from by
            simp [splitOnPred, hx]] at hp
        rcases List.mem_cons.mp hp with h | h
        · subst h
          cases hc
        · exact ih piece h c hc
      · rw [Bool.not_eq_true] at hx
        rcases hr : splitOnPred p rest with _ | ⟨h0, t⟩
        · exact absurd hr (splitOnPred_ne_nil p rest)
        · rw [show splitOnPred p (x :: rest) = (x :: h0) :: t from by
              simp [splitOnPred, hx, hr]] at hp
          rcases List.mem_cons.mp hp with h | h
          · subst h
            rcases List.mem_cons.mp hc with hcx | hch
            · subst hcx
              exact hx
            · exact ih h0 (by rw [hr]; exact List.mem_cons_self h0 t) c hch
          · exact ih piece (by rw [hr]; exact List.mem_cons_of_mem h0 h) c hc

/-- The normalized leaf of a group path contains no path separator. -/
theorem normalizeGroup_no_slash (g : String) :
    ∀ c ∈ (normalizeGroup g).data, c ≠ '/' := by
  intro c hc
  unfold normalizeGroup at hc
  by_cases hg : g = ""
  · rw [if_pos hg] at hc
    cases hc
  · rw [if_neg hg] at hc
    rcases hL : splitOnChar '/' (stripChar '/' g.data) with _ | ⟨h0, t⟩
    · exact absurd hL (splitOnPred_ne_nil _ _)
    · rw [hL] at hc
      have hne : (h0 :: t) ≠ [] := by simp
      have hmem : (h0 :: t).getLastD [] ∈ h0 :: t := by
        rw [List.getLastD_eq_getLast?, List.getLast?_eq_getLast _ hne]
        simp only [Option.getD_some]
        exact List.getLast_mem hne
      have hpc := splitOnPred_pieces (fun c => c == '/') (stripChar '/' g.data)
        ((h0 :: t).getLastD []) (by rw [show splitOnPred (fun c => c == '/')
          (stripChar '/' g.data) = h0 :: t from hL]; exact hmem) c hc
      intro hcc
      rw [hcc] at hpc
      simp at hpc

/-- The group-collection loop is an order-preserving elementwise
normalization: `filterMap` of the per-element rule, no deduplication, no
sorting. -/
theorem collectGroups_eq_filterMap :
    ∀ raw, collectGroups raw = raw.filterMap (fun j =>
      match j with
      | .str g => if normalizeGroup g = "" then none
                  else some (normalizeGroup g)
      | _ => none) := by
  intro raw
  induction raw with
  | nil => rfl
  | cons j rest ih =>
      cases j with
      | str g =>
          by_cases hn : normalizeGroup g = "" <;>
            simp [collectGroups, List.filterMap_cons, hn, ih]
      | null => simp [collectGroups, List.filterMap_cons, ih]
      | bool b => simp [collectGroups, List.filterMap_cons, ih]
      | num n => simp [collectGroups, List.filterMap_cons, ih]
      | arr l => simp [collectGroups, List.filterMap_cons, ih]
      | obj m => simp [collectGroups, List.filterMap_cons, ih]

/-- Every collected group is non-empty and separator-free. -/
theorem collectGroups_mem :
    ∀ raw g, g ∈ collectGroups raw → g ≠ "" ∧ ∀ c ∈ g.data, c ≠ '/' := by
  intro raw
  induction raw with
  | nil =>
      intro g hg
      cases hg
  | cons j rest ih =>
      intro g hg
      cases j with
      | str g0 =>
          by_cases hn : normalizeGroup g0 ≠ ""
          · rw [show collectGroups (Json.str g0 :: rest) =
                normalizeGroup g0 :: collectGroups rest from by
                simp [collectGroups, hn]] at hg
            rcases List.mem_cons.mp hg with h | h
            · subst h
              exact ⟨hn, normalizeGroup_no_slash g0⟩
            · exact ih g h
          · rw [show collectGroups (Json.str g0 :: rest) =
                collectGroups rest from by simp [collectGroups, hn]] at hg
            exact ih g hg
      | null => exact ih g hg
      | bool b => exact ih g hg
      | num n => exact ih g hg
      | arr l => exact ih g hg
      | obj m => exact ih g hg

/-- C7 amended: the subject resolver normalizes each group path by
stripping leading and trailing path separators and keeping only the leaf
segment (dropping elements whose normalization is empty), and returns the
groups and scopes lists **in encounter order, without deduplication or
sorting**; every returned group is non-empty and separator-free; scopes
are parsed from a space-separated scope string (or kept from a list form,
string elements only). -/
theorem subject_normalization_in_order :
    ∀ (claims : List (String × Json)),
    (∀ raw, Json.lookup "groups" claims = some (.arr raw) →
      extractGroups "groups" claims =
        raw.filterMap (fun j =>
          match j with
          | .str g => if normalizeGroup g = "" then none
                      else some (normalizeGroup g)
          | _ => none)) ∧
    (∀ g ∈ extractGroups "groups" claims, g ≠ "" ∧ ∀ c ∈ g.data, c ≠ '/') ∧
    (∀ raw, Json.lookup "scope" claims = some (.str raw) →
      extractScopes "scope" claims = pySplitWs raw ∧
      ∀ sc ∈ pySplitWs raw, sc ≠ "") ∧
    (∀ raw, Json.lookup "scope" claims = some (.arr raw) →
      extractScopes "scope" claims =
        raw.filterMap (fun j =>
          match j with
          | .str t => some t
          | _ => none)) ∧
    (extractSubjectFromClaims claims).groups = extractGroups "groups" claims ∧
    (extractSubjectFromClaims claims).scopes = extractScopes "scope" claims := by
  intro claims
  refine ⟨?_, ?_, ?_, ?_, rfl, rfl⟩
  · intro raw hl
    rw [show extractGroups "groups" claims = collectGroups raw from by
      simp [extractGroups, hl]]
    exact collectGroups_eq_filterMap raw
  · intro g hg
    rcases hl : Json.lookup "groups" claims with _ | v
    · rw [show extractGroups "groups" claims = [] from by
        simp [extractGroups, hl]] at hg
      cases hg
    · cases v with
      | arr raw =>
          rw [show extractGroups "groups" claims = collectGroups raw from by
            simp [extractGroups, hl]] at hg
          exact collectGroups_mem raw g hg
      | null =>
          rw [show extractGroups "groups" claims = [] from by
            simp [extractGroups, hl]] at hg
          cases hg
      | bool b =>
          rw [show extractGroups "groups" claims = [] from by
            simp [extractGroups, hl]] at hg
          cases hg
      | num n =>
          rw [show extractGroups "groups" claims = [] from by
            simp [extractGroups, hl]] at hg
          cases hg
      | str s =>
          rw [show extractGroups "groups" claims = [] from by
            simp [extractGroups, hl]] at hg
          cases hg
      | obj m =>
          rw [show extractGroups "groups" claims = [] from by
            simp [extractGroups, hl]] at hg
          cases hg
  · intro raw hl
    constructor
    · rw [show extractScopes "scope" claims =
          (pySplitWs raw).filter (fun s => s ≠ "") from by
        simp [extractScopes, hl]]
      rw [List.filter_eq_self.mpr]
      intro a ha
      exact (List.mem_filter.mp ha).2
    · intro sc hsc
      exact of_decide_eq_true (List.mem_filter.mp hsc).2
  · intro raw hl
    simp [extractScopes, hl]

/-- Witness for C7: a nested group path is normalized to its leaf in
place, a non-string element is dropped, and a scope string splits on
whitespace in encounter order. -/
theorem subject_normalization_in_order_witness :
    extractGroups "groups" [("groups", .arr [.str "/org/admins", .num 3])] =
      ([.str "/org/admins", .num 3] : List Json).filterMap (fun j =>
        match j with
        | .str g => if normalizeGroup g = "" then none
                    else some (normalizeGroup g)
        | _ => none) ∧
    extractScopes "scope" [("scope", .str "dataset.query mqtt.read")] =
      pySplitWs "dataset.query mqtt.read" :=
  ⟨(subject_normalization_in_order
      [("groups", .arr [.str "/org/admins", .num 3])]).1 _ rfl,
   ((subject_normalization_in_order
      [("scope", .str "dataset.query mqtt.read")]).2.2.1 _ rfl).1⟩

/-- C10 counterexample: a *present but empty* Authorization header is
falsy in Python, so `get_subject` treats it as anonymous rather than
rejecting it — the header need not be absent; and a header in lowercase
`"bearer <token>"` form (not the exact form `"Bearer <token>"`) is not
rejected either: the scheme check is case-insensitive and the token is
validated normally. -/
theorem get_subject_empty_header_anonymous :
    getSubject (fun _ => .error "Invalid token: bad") (some "") = .ok none ∧
    (some "" : Option String) ≠ none ∧
    getSubject (fun _ => .ok []) (some "bearer t") =
      .ok (some (extractSubjectFromClaims [])) ∧
    "bearer t" ≠ "Bearer t" := by
  refine ⟨rfl, by decide, rfl, by decide⟩

/-- C10 amended: on the generic authorize path a request is treated as
anonymous (subject `None`) exactly when its Authorization header is absent
**or empty**; a non-empty header that does not split into exactly two
whitespace-separated parts whose first is case-insensitively `bearer` is
rejected with a 401; a well-formed header whose token fails validation is
rejected with a 401; a well-formed header whose token validates yields the
extracted subject — a non-empty header is never treated as anonymous. -/
theorem get_subject_auth_boundary :
    ∀ (validate : String → Except String (List (String × Json)))
      (auth : Option String),
    (getSubject validate auth = .ok none ↔ auth = none ∨ auth = some "") ∧
    (∀ a, auth = some a → a ≠ "" →
      ((pySplitWs a).length ≠ 2 ∨ pyLower ((pySplitWs a).headD "") ≠ "bearer") →
      getSubject validate auth =
        .error (.unauthorized "Invalid authorization header format")) ∧
    (∀ a e, auth = some a → a ≠ "" →
      ¬((pySplitWs a).length ≠ 2 ∨ pyLower ((pySplitWs a).headD "") ≠ "bearer") →
      validate ((pySplitWs a).getD 1 "") = .error e →
      getSubject validate auth = .error (.unauthorized e)) ∧
    (∀ a claims, auth = some a → a ≠ "" →
      ¬((pySplitWs a).length ≠ 2 ∨ pyLower ((pySplitWs a).headD "") ≠ "bearer") →
      validate ((pySplitWs a).getD 1 "") = .ok claims →
      getSubject validate auth = .ok (some (extractSubjectFromClaims claims))) := by
  intro validate auth
  refine ⟨⟨?_, ?_⟩, ?_, ?_, ?_⟩
  · intro h
    cases auth with
    | none => exact Or.inl rfl
    | some a =>
        by_cases ha : a = ""
        · exact Or.inr (by rw [ha])
        · exfalso
          simp only [getSubject] at h
          rw [if_neg ha] at h
          by_cases hcond : (pySplitWs a).length ≠ 2 ∨
              pyLower ((pySplitWs a).headD "") ≠ "bearer"
          · rw [if_pos hcond] at h
            cases h
          · rw [if_neg hcond] at h
            rcases hv : validate ((pySplitWs a).getD 1 "") with e | claims <;>
              rw [hv] at h <;> cases h
  · intro h
    rcases h with h | h <;> subst h <;> rfl
  · intro a hsub ha hcond
    subst hsub
    simp only [getSubject]
    rw [if_neg ha, if_pos hcond]
  · intro a e hsub ha hcond hv
    subst hsub
    simp only [getSubject]
    rw [if_neg ha, if_neg hcond, hv]
  · intro a claims hsub ha hcond hv
    subst hsub
    simp only [getSubject]
    rw [if_neg ha, if_neg hcond, hv]

/-- Witness for C10: a Basic-scheme header is rejected with 401, a bearer
token failing validation is rejected with 401, a valid bearer token yields
a subject, and an absent header is anonymous. -/
theorem get_subject_auth_boundary_witness :
    getSubject (fun t => if t = "good" then .ok [] else
        .error "Invalid token: bad") (some "Basic dXNlcg==") =
      .error (.unauthorized "Invalid authorization header format") ∧
    getSubject (fun t => if t = "good" then .ok [] else
        .error "Invalid token: bad") (some "Bearer bad") =
      .error (.unauthorized "Invalid token: bad") ∧
    getSubject (fun t => if t = "good" then .ok [] else
        .error "Invalid token: bad") (some "Bearer good") =
      .ok (some (extractSubjectFromClaims [])) ∧
    getSubject (fun t => if t = "good" then .ok [] else
        .error "Invalid token: bad") none = .ok none := by
  refine ⟨?_, ?_, ?_, ?_⟩
  · exact (get_subject_auth_boundary
      (fun t => if t = "good" then .ok [] else .error "Invalid token: bad")
      (some "Basic dXNlcg==")).2.1 "Basic dXNlcg==" rfl (by decide) (by decide)
  · exact (get_subject_auth_boundary
      (fun t => if t = "good" then .ok [] else .error "Invalid token: bad")
      (some "Bearer bad")).2.2.1 "Bearer bad" "Invalid token: bad"
      rfl (by decide) (by decide) rfl
  · exact (get_subject_auth_boundary
      (fun t => if t = "good" then .ok [] else .error "Invalid token: bad")
      (some "Bearer good")).2.2.2 "Bearer good" [] rfl (by decide)
      (by decide) rfl
  · exact ((get_subject_auth_boundary
      (fun t => if t = "good" then .ok [] else .error "Invalid token: bad")
      none).1).mpr (Or.inl rfl)

/-- One `TTLCache` insert keeps the entry count within `maxsize`. -/
theorem rawSet_length_le (c : DecisionCache) (now : Nat) (k : String)
    (d : Decision) (h : 1 ≤ c.maxsize) :
    (c.rawSet now k d).entries.length ≤ c.maxsize := by
  unfold DecisionCache.rawSet
  rw [if_neg (by omega : ¬ c.maxsize = 0)]
  simp only [List.length_cons, List.length_take]
  omega

/-- `TTLCache` insert does not change the configured capacity. -/
theorem rawSet_maxsize (c : DecisionCache) (now : Nat) (k : String)
    (d : Decision) : (c.rawSet now k d).maxsize = c.maxsize := by
  unfold DecisionCache.rawSet
  split <;> rfl

/-- C9: after any sequence of `set` operations starting from a fresh
cache, the `DecisionCache` never holds more than `maxsize` entries; and an
insert of a fresh key into a full cache (no entry expired) evicts exactly
the least-recently-used entry — the resulting key list is the new key
followed by all old keys except the least recently used one. -/
theorem cache_capacity_lru :
    (∀ (maxsize ttl : Nat) (ops : List (Nat × String × Decision)),
      1 ≤ maxsize →
      (ops.foldl (fun c op => DecisionCache.rawSet c op.1 op.2.1 op.2.2)
        (DecisionCache.init maxsize ttl)).entries.length ≤ maxsize) ∧
    (∀ (c : DecisionCache) (now : Nat) (k : String) (d : Decision),
      c.entries.length = c.maxsize → 1 ≤ c.maxsize →
      k ∉ c.keys → (∀ e ∈ c.entries, now < e.2.2) →
      (c.rawSet now k d).keys = k :: c.keys.dropLast) := by
  constructor
  · have step : ∀ (maxsize : Nat) (ops : List (Nat × String × Decision))
        (c : DecisionCache), c.maxsize = maxsize → 1 ≤ maxsize →
        c.entries.length ≤ maxsize →
        (ops.foldl (fun c op => DecisionCache.rawSet c op.1 op.2.1 op.2.2)
          c).entries.length ≤ maxsize := by
      intro maxsize ops
      induction ops with
      | nil =>
          intro c _ _ hlen
          exact hlen
      | cons op rest ih =>
          intro c hms h1 _
          refine ih (c.rawSet op.1 op.2.1 op.2.2) ?_ h1 ?_
          · rw [rawSet_maxsize, hms]
          · have hb := rawSet_length_le c op.1 op.2.1 op.2.2
              (by rw [hms]; exact h1)
            rw [hms] at hb
            exact hb
    intro maxsize ttl ops h1
    exact step maxsize ops (DecisionCache.init maxsize ttl) rfl h1
      (by simp [DecisionCache.init])
  · intro c now k d hfull h1 hfresh hlive
    have hliveF : c.entries.filter (fun e => now < e.2.2) = c.entries :=
      List.filter_eq_self.mpr (fun e he => decide_eq_true (hlive e he))
    have hfreshF : c.entries.filter (fun e => !(e.1 == k)) = c.entries := by
      refine List.filter_eq_self.mpr (fun e he => ?_)
      have : e.1 ≠ k := by
        intro hek
        exact hfresh (hek ▸ List.mem_map_of_mem (·.1) he)
      simp [this]
    unfold DecisionCache.rawSet
    rw [if_neg (by omega : ¬ c.maxsize = 0)]
    simp only [DecisionCache.keys, hliveF, hfreshF, List.map_cons]
    congr 1
    rw [← List.map_dropLast, List.dropLast_eq_take, hfull]

/-- Witness for C9: a capacity-2 cache holds at most two entries after
three distinct inserts, and inserting the third key evicts exactly the
least-recently-used of the first two. -/
theorem cache_capacity_lru_witness :
    (([(0, "k1", { allowed := true, reason := "", policy := "p",
                   filters := [], metadata := [] }),
       (1, "k2", { allowed := true, reason := "", policy := "p",
                   filters := [], metadata := [] }),
       (2, "k3", { allowed := false, reason := "deny", policy := "p",
                   filters := [], metadata := [] })]
        : List (Nat × String × Decision)).foldl
        (fun c op => DecisionCache.rawSet c op.1 op.2.1 op.2.2)
        (DecisionCache.init 2 60)).entries.length ≤ 2 ∧
    (DecisionCache.rawSet
      { maxsize := 2, ttl := 60,
        entries := [("k2", { allowed := true, reason := "", policy := "p",
                             filters := [], metadata := [] }, 100),
                    ("k1", { allowed := true, reason := "", policy := "p",
                             filters := [], metadata := [] }, 100)],
        hits := 0, misses := 0 } 3 "k3"
      { allowed := false, reason := "deny", policy := "p", filters := [],
        metadata := [] }).keys = "k3" :: ["k2", "k1"].dropLast := by
  constructor
  · exact cache_capacity_lru.1 2 60 _ (by omega)
  · refine cache_capacity_lru.2 _ 3 "k3" _ rfl (by decide) ?_ ?_
    · intro h
      simp [DecisionCache.keys] at h
    · intro e he
      simp only [List.mem_cons, List.mem_singleton] at he
      rcases he with he | he | he
      · rw [he]
        decide
      · rw [he]
        decide
      · cases he

/-- `canonMembers` maps canonicalization over the member values. -/
theorem canonMembers_eq_map :
    ∀ m, Json.canonMembers m = m.map (fun p => (p.1, Json.canon p.2)) := by
  intro m
  induction m with
  | nil => rfl
  | cons p rest ih =>
      rcases p with ⟨k, v⟩
      simp [Json.canonMembers, ih]

/-- Sorting by key is a function of the member multiset: two permuted
member lists with duplicate-free keys sort to the same list. -/
theorem sortedKeys_unique :
    ∀ (l1 l2 : List (String × Json)), l1.Perm l2 →
      (l1.map Prod.fst).Nodup →
      List.insertionSort (fun p q => p.1 ≤ q.1) l1 =
        List.insertionSort (fun p q => p.1 ≤ q.1) l2 := by
  intro l1 l2 hperm hnd
  haveI hT : IsTotal (String × Json) (fun p q => p.1 ≤ q.1) :=
    ⟨fun a b => le_total a.1 b.1⟩
  haveI hTr : IsTrans (String × Json) (fun p q => p.1 ≤ q.1) :=
    ⟨fun a b c hab hbc => le_trans hab hbc⟩
  haveI hA : IsAntisymm (String × Json) (fun p q => p.1 < q.1) :=
    ⟨fun a b hab hba => absurd (lt_trans hab hba) (lt_irrefl _)⟩
  have hp : (List.insertionSort (fun p q => p.1 ≤ q.1) l1).Perm
      (List.insertionSort (fun p q => p.1 ≤ q.1) l2) :=
    (List.perm_insertionSort _ l1).trans
      (hperm.trans (List.perm_insertionSort _ l2).symm)
  have hnd2 : (l2.map Prod.fst).Nodup := ((hperm.map Prod.fst).nodup_iff).mp hnd
  have key : ∀ (l : List (String × Json)), (l.map Prod.fst).Nodup →
      List.Pairwise (fun p q : String × Json => p.1 < q.1)
        (List.insertionSort (fun p q => p.1 ≤ q.1) l) := by
    intro l hl
    have hs : List.Pairwise (fun p q : String × Json => p.1 ≤ q.1)
        (List.insertionSort (fun p q => p.1 ≤ q.1) l) :=
      List.sorted_insertionSort _ l
    have hnds : ((List.insertionSort (fun p q => p.1 ≤ q.1) l).map
        Prod.fst).Nodup :=
      (((List.perm_insertionSort _ l).map Prod.fst).nodup_iff).mpr hl
    have hne : List.Pairwise (fun p q : String × Json => p.1 ≠ q.1)
        (List.insertionSort (fun p q => p.1 ≤ q.1) l) :=
      List.pairwise_map.mp hnds
    exact (hs.and hne).imp (fun h => lt_of_le_of_ne h.1 h.2)
  exact List.eq_of_perm_of_sorted hp (key l1 hnd) (key l2 hnd2)

/-- Canonicalizing an object forgets member order (given unique keys). -/
theorem canon_obj_perm :
    ∀ (e1 e2 : List (String × Json)), e1.Perm e2 →
      (e1.map Prod.fst).Nodup →
      Json.canon (.obj e1) = Json.canon (.obj e2) := by
  intro e1 e2 hperm hnd
  simp only [Json.canon]
  congr 1
  apply sortedKeys_unique
  · rw [canonMembers_eq_map, canonMembers_eq_map]
    exact hperm.map _
  · rw [canonMembers_eq_map, List.map_map]
    have hcomp : (Prod.fst ∘ fun p : String × Json => (p.1, Json.canon p.2)) =
        Prod.fst := rfl
    rw [hcomp]
    exact hnd

/-- Canonicalized stable inputs coincide for inputs that agree on
`subject`/`resource`/`action` and on the stable part of the
environment. -/
theorem stable_canon_eq :
    ∀ (i1 i2 : InputDict),
    i1.subject = i2.subject → i1.resource = i2.resource →
    i1.action = i2.action → EnvAgree i1.environment i2.environment →
    Json.canon (extractStableInput i1) = Json.canon (extractStableInput i2) := by
  intro i1 i2 hs hr ha henv
  rcases i1 with ⟨s1, r1, a1, env1⟩
  rcases i2 with ⟨s2, r2, a2, env2⟩
  simp only at hs hr ha
  subst hs
  subst hr
  subst ha
  rcases env1 with _ | e1 <;> rcases env2 with _ | e2
  · rfl
  · exact absurd henv (by simp [EnvAgree])
  · exact absurd henv (by simp [EnvAgree])
  · obtain ⟨hperm, hnd⟩ := henv
    by_cases hemp : (stableEnvFilter e1).isEmpty = true
    · have he1 : stableEnvFilter e1 = [] := List.isEmpty_iff.mp hemp
      have he2 : stableEnvFilter e2 = [] := by
        refine List.Perm.eq_nil ?_
        rw [← he1]
        exact hperm.symm
      simp [extractStableInput, he1, he2]
    · have hemp2 : ¬ (stableEnvFilter e2).isEmpty = true := by
        intro h2
        have h2' : stableEnvFilter e2 = [] := List.isEmpty_iff.mp h2
        have h1' : stableEnvFilter e1 = [] := List.Perm.eq_nil (h2' ▸ hperm)
        exact hemp (List.isEmpty_iff.mpr h1')
      have hcanon : Json.canon (.obj (stableEnvFilter e1)) =
          Json.canon (.obj (stableEnvFilter e2)) :=
        canon_obj_perm _ _ hperm hnd
      simp only [extractStableInput]
      rw [if_neg hemp, if_neg hemp2]
      simp only [Json.canon]
      congr 1
      rw [canonMembers_eq_map, canonMembers_eq_map]
      congr 1
      simp only [List.map_append, List.map_cons, List.map_nil]
      rw [hcanon]

/-- C3: the decision-cache key ignores the volatile environment fields
`request_id`, `timestamp` and `trace_id`: two inputs identical except for
those fields (environment compared as a Python dict, i.e. up to binding
order, keys unique) get the same key, so a `get` after one `set` hits for
both; and since the key is the package name, a colon, and a fixed-length
digest, keys under different packages can never collide. -/
theorem decision_cache_stable_key :
    ∀ (digest : String → String), HexDigest32 digest →
    ∀ (c : DecisionCache) (now : Nat) (pkg : String) (i1 i2 : InputDict)
      (d : Decision),
    i1.subject = i2.subject → i1.resource = i2.resource →
    i1.action = i2.action → EnvAgree i1.environment i2.environment →
    (makeKey digest pkg i1 = makeKey digest pkg i2) ∧
    (1 ≤ c.ttl → c.maxsize ≠ 0 →
      (DecisionCache.get digest (DecisionCache.set digest c now pkg i1 d)
        now pkg i2).1 = some d) ∧
    (∀ pkg2 j1 j2, pkg ≠ pkg2 →
      makeKey digest pkg j1 ≠ makeKey digest pkg2 j2) := by
  intro digest hdig c now pkg i1 i2 d hs hr ha henv
  have hkey : makeKey digest pkg i1 = makeKey digest pkg i2 := by
    unfold makeKey
    have hd : Json.dumps (extractStableInput i1) =
        Json.dumps (extractStableInput i2) := by
      unfold Json.dumps
      rw [stable_canon_eq i1 i2 hs hr ha henv]
    rw [hd]
  refine ⟨hkey, ?_, ?_⟩
  · intro httl hms
    unfold DecisionCache.get DecisionCache.set
    rw [← hkey]
    unfold DecisionCache.rawSet
    rw [if_neg hms]
    unfold DecisionCache.rawGet
    rw [List.find?_cons_of_pos _ (by simp)]
    simp only []
    rw [if_pos (by omega : now < now + c.ttl)]
  · intro pkg2 j1 j2 hne heq
    unfold makeKey at heq
    have hdig' : ∀ s, (digest s).length = 32 := hdig
    have hlen := congrArg String.length heq
    have hcolon : (":" : String).length = 1 := rfl
    simp only [String.length_append, hcolon, hdig'] at hlen
    have hplen : pkg.data.length = pkg2.data.length := by
      have hl : pkg.length = pkg2.length := by omega
      exact hl
    have hdata := congrArg String.data heq
    simp only [String.data_append] at hdata
    have hstep := (List.append_inj hdata (by simp [hplen])).1
    exact hne (String.ext (List.append_inj hstep hplen).1)

/-- Witness for C3: two inputs differing only in `request_id` and
`timestamp` (and in environment binding order) hit the same cache entry,
and dataset keys can never equal pipeline keys. -/
theorem decision_cache_stable_key_witness :
    (makeKey (fun _ => "0123456789abcdef0123456789abcdef")
        "celine.dataset.access"
        { subject := some (.str "u1"), resource := some (.str "d1"),
          action := some (.str "read"),
          environment := some [("request_id", .str "r1"),
                               ("region", .str "eu"),
                               ("timestamp", .num 1)] } =
      makeKey (fun _ => "0123456789abcdef0123456789abcdef")
        "celine.dataset.access"
        { subject := some (.str "u1"), resource := some (.str "d1"),
          action := some (.str "read"),
          environment := some [("timestamp", .num 2),
                               ("region", .str "eu"),
                               ("request_id", .str "r2")] }) ∧
    ((DecisionCache.get (fun _ => "0123456789abcdef0123456789abcdef")
        (DecisionCache.set (fun _ => "0123456789abcdef0123456789abcdef")
          (DecisionCache.init 10 300) 0 "celine.dataset.access"
          { subject := some (.str "u1"), resource := some (.str "d1"),
            action := some (.str "read"),
            environment := some [("request_id", .str "r1"),
                                 ("region", .str "eu"),
                                 ("timestamp", .num 1)] }
          { allowed := true, reason := "ok", policy := "celine.dataset.access",
            filters := [], metadata := [] })
        0 "celine.dataset.access"
        { subject := some (.str "u1"), resource := some (.str "d1"),
          action := some (.str "read"),
          environment := some [("timestamp", .num 2),
                               ("region", .str "eu"),
                               ("request_id", .str "r2")] }).1 =
      some { allowed := true, reason := "ok",
             policy := "celine.dataset.access", filters := [],
             metadata := [] }) ∧
    makeKey (fun _ => "0123456789abcdef0123456789abcdef")
        "celine.dataset.access"
        { subject := none, resource := none, action := none,
          environment := none } ≠
      makeKey (fun _ => "0123456789abcdef0123456789abcdef")
        "celine.pipeline.state"
        { subject := none, resource := none, action := none,
          environment := none } := by
  have h := decision_cache_stable_key
    (fun _ => "0123456789abcdef0123456789abcdef") (fun s => rfl)
    (DecisionCache.init 10 300) 0 "celine.dataset.access"
    { subject := some (.str "u1"), resource := some (.str "d1"),
      action := some (.str "read"),
      environment := some [("request_id", .str "r1"), ("region", .str "eu"),
                           ("timestamp", .num 1)] }
    { subject := some (.str "u1"), resource := some (.str "d1"),
      action := some (.str "read"),
      environment := some [("timestamp", .num 2), ("region", .str "eu"),
                           ("request_id", .str "r2")] }
    { allowed := true, reason := "ok", policy := "celine.dataset.access",
      filters := [], metadata := [] }
    rfl rfl rfl ⟨List.Perm.refl _, by decide⟩
  exact ⟨h.1, h.2.1 (by decide) (by decide),
         h.2.2 "celine.pipeline.state"
           { subject := none, resource := none, action := none,
             environment := none }
           { subject := none, resource := none, action := none,
             environment := none } (by decide)⟩

end Celine
